import Mathlib

/-!
Shallow embedding of the `dspa-deployment` maintenance scripts
(`submit_pipeline.py`, `submit_pipeline_complete.py`,
`submit_pipeline_production.py`, `submit_pipeline_nfs_storage.py`,
`monitor_production_pipeline.py`, `fix_granite_image.py`).

External effects (subprocess results, HTTP responses, exceptions,
keyboard interrupts) are modelled as explicit inputs: each helper
becomes a function from the outcome of its external call to its
Python return value, and each polling loop becomes a step function
over a stream of per-iteration events, driven by a fuel-indexed
runner.  Python floats are modelled exactly as IEEE-754 binary64
via round-to-nearest-even on rationals.
-/

namespace Dspa

/-! ## Outcomes of external calls -/

/-- Result of a `subprocess.run(..., check=True)` call: either captured
stdout, or a `CalledProcessError` carrying stderr. -/
inductive ProcResult where
  | success (stdout : String)
  | failure (stderr : String)
  deriving DecidableEq, Repr

/-- What a Python helper does at top level: return a value to its caller,
or terminate the whole process via `sys.exit`. -/
inductive ProcOutcome (α : Type) where
  | returns (a : α)
  | exits (code : Nat)
  deriving DecidableEq, Repr

/-- Did the helper terminate the process (rather than return)? -/
def ProcOutcome.isExit {α : Type} : ProcOutcome α → Bool
  | .returns _ => false
  | .exits _ => true

/-- `run_kubectl` from `monitor_production_pipeline.py` (also
`run_oc_command` in `fix_granite_image.py`): on success return stripped
stdout, on `CalledProcessError` print and return `None`. -/
def run_kubectl : ProcResult → Option String
  | .success out => some out.trim
  | .failure _ => none

/-- `get_bearer_token` from `submit_pipeline_nfs_storage.py` /
`submit_pipeline_production.py`: on success return the stripped token,
on `CalledProcessError` print and `sys.exit(1)`. -/
def get_bearer_token : ProcResult → ProcOutcome String
  | .success out => .returns out.trim
  | .failure _ => .exits 1

/-- `get_dspa_route` from `submit_pipeline_nfs_storage.py` /
`submit_pipeline_production.py`: on success return the stripped host,
on `CalledProcessError` print and `sys.exit(1)`. -/
def get_dspa_route : ProcResult → ProcOutcome String
  | .success out => .returns out.trim
  | .failure _ => .exits 1

/-- `get_dspa_info` from `submit_pipeline.py` / `submit_pipeline_complete.py`:
reads the route via `os.popen`; input is the read output (`none` models an
exception inside the `try`).  Returns `https://<route>` when the stripped
output is non-empty, else `None`. -/
def get_dspa_info : Option String → Option String
  | none => none
  | some out =>
    let route := out.trim
    if route = "" then none else some ("https://" ++ route)

/-! ## Kubeconfig token extraction (`get_openshift_token`) -/

/-- One entry of the kubeconfig `contexts` list (`name` and
`context.user` fields; well-formed entries). -/
structure CtxEntry where
  name : String
  user : String
  deriving DecidableEq, Repr

/-- One entry of the kubeconfig `users` list; `token` is the optional
`user.token` field. -/
structure UserEntry where
  name : String
  token : Option String
  deriving DecidableEq, Repr

/-- A parsed kubeconfig file. -/
structure Kubeconfig where
  currentContext : Option String
  contexts : List CtxEntry
  users : List UserEntry
  deriving DecidableEq, Repr

/-- The `for user in config.get('users', [])` loop of
`get_openshift_token`: returns the token of the first user entry whose
name matches and which has a `token` field. -/
def findToken : List UserEntry → String → Option String
  | [], _ => none
  | u :: rest, nm =>
    if u.name = nm ∧ u.token.isSome then u.token else findToken rest nm

/-- `get_openshift_token` from `submit_pipeline.py` /
`submit_pipeline_complete.py`.  The input is the parsed kubeconfig;
`none` models any exception while reading or parsing the file (the
broad `except` returns `None`).  An empty `current-context` string is
falsy in Python, hence also yields `None`. -/
def get_openshift_token : Option Kubeconfig → Option String
  | none => none
  | some cfg =>
    match cfg.currentContext with
    | none => none
    | some cc =>
      if cc = "" then none
      else
        match cfg.contexts.find? (fun c => c.name = cc) with
        | none => none
        | some ce => findToken cfg.users ce.user

/-! ## Pipeline parameter payload (`submit_pipeline.py`) -/

/-- One entry of the hardcoded `train_tolerations` list. -/
structure Toleration where
  key : String
  operator : String
  value : String
  effect : String
  deriving DecidableEq, Repr

/-- A JSON parameter value as it appears in the hardcoded parameter
tables.  Float literals are represented by their decimal value as a
rational (they are only ever compared for identity, never computed
with). -/
inductive PValue where
  | pstr (s : String)
  | pint (n : Int)
  | pnum (q : Rat)
  | pbool (b : Bool)
  | pemptyDict
  | ptolerations (ts : List Toleration)
  deriving DecidableEq, Repr

/-- First-match association-list lookup, i.e. Python `d[k]` /
`k in d` for a dict represented as its ordered item list. -/
def lookupA : List (String × PValue) → String → Option PValue
  | [], _ => none
  | kv :: rest, k => if kv.1 = k then some kv.2 else lookupA rest k

/-- The in-place part of Python `d.update(u)`: each entry of `d` keeps
its key and position, its value replaced when the key occurs in `u`. -/
def mapUpd (d u : List (String × PValue)) : List (String × PValue) :=
  d.map (fun kv =>
    match lookupA u kv.1 with
    | some v => (kv.1, v)
    | none => kv)

/-- Python `d.update(u)`: values of existing keys are replaced in
place, keys of `u` not present in `d` are appended in order. -/
def dictUpdate (d u : List (String × PValue)) : List (String × PValue) :=
  mapUpd d u ++ u.filter (fun kv => (lookupA d kv.1).isNone)

/-- The `default_params` table of `submit_pipeline.submit_pipeline`,
verbatim (order preserved). -/
def default_params : List (String × PValue) :=
  [ ("output_model_name", .pstr "fine-tuned-granite-7b"),
    ("output_model_registry_api_url", .pstr ""),
    ("output_model_registry_name", .pstr ""),
    ("output_model_version", .pstr ""),
    ("output_oci_model_uri", .pstr ""),
    ("output_oci_registry_secret", .pstr "oci-output-push-secret"),
    ("sdg_base_model", .pstr "oci://registry.redhat.io/rhoai/granite-7b-starter"),
    ("sdg_repo_url", .pstr "https://github.com/cnuland/hello-chris-dev-taxonomy.git"),
    ("train_node_selectors", .pemptyDict),
    ("train_tolerations", .ptolerations
      [{ key := "nvidia.com/gpu", operator := "Equal",
         value := "true", effect := "NoSchedule" }]),
    ("sdg_teacher_secret", .pstr "teacher-secret"),
    ("sdg_repo_secret", .pstr "taxonomy-repo-secret"),
    ("eval_judge_secret", .pstr "judge-secret"),
    ("train_gpu_identifier", .pstr "nvidia.com/gpu"),
    ("eval_gpu_identifier", .pstr "nvidia.com/gpu"),
    ("k8s_storage_class_name", .pstr "gp3"),
    ("k8s_storage_size", .pstr "50Gi"),
    ("sdg_scale_factor", .pint 30),
    ("train_num_epochs_phase_1", .pint 7),
    ("train_num_epochs_phase_2", .pint 10),
    ("train_effective_batch_size_phase_1", .pint 3840),
    ("train_effective_batch_size_phase_2", .pint 3840),
    ("train_learning_rate_phase_1", .pnum (2 / 1000000)),
    ("train_learning_rate_phase_2", .pnum (1 / 1000000)),
    ("train_cpu_per_worker", .pstr "8"),
    ("train_memory_per_worker", .pstr "32Gi"),
    ("train_gpu_per_worker", .pint 1),
    ("train_num_workers", .pint 4),
    ("sdg_batch_size", .pint 10),
    ("sdg_num_workers", .pint 4),
    ("mt_bench_merge_system_user_message", .pbool false),
    ("final_eval_merge_system_user_message", .pbool false),
    ("mt_bench_max_workers", .pstr "auto"),
    ("final_eval_max_workers", .pstr "auto"),
    ("final_eval_batch_size", .pstr "auto"),
    ("final_eval_few_shots", .pint 5) ]

/-- `main` of `submit_pipeline.py`: build `custom_params` from the CLI
flags.  `argparse` leaves an absent flag as `None`; `if args.repo_url:`
is also false for an empty string. -/
def buildCustom (repoUrl baseModel outputName : Option String) :
    List (String × PValue) :=
  (match repoUrl with
   | some s => if s = "" then [] else [("sdg_repo_url", PValue.pstr s)]
   | none => [])
  ++ (match baseModel with
      | some s => if s = "" then [] else [("sdg_base_model", PValue.pstr s)]
      | none => [])
  ++ (match outputName with
      | some s => if s = "" then [] else [("output_model_name", PValue.pstr s)]
      | none => [])

/-- The `runtime_config.parameters` table of the submitted payload:
`default_params` updated with `custom_params` when the latter is
non-empty (`main` passes `None` for an empty dict and
`submit_pipeline` skips the update). -/
def payloadParams (repoUrl baseModel outputName : Option String) :
    List (String × PValue) :=
  let u := buildCustom repoUrl baseModel outputName
  if u.isEmpty then default_params else dictUpdate default_params u

/-! ## Exact model of Python float arithmetic (IEEE-754 binary64)

Python's `int((completed / total) * 100)` performs a correctly rounded
binary64 division, a correctly rounded binary64 multiplication, and a
truncation toward zero.  We model binary64 rounding exactly on `Rat`:
round-to-nearest-even at 53 significand bits (our values all lie well
inside the normal range, so subnormals and overflow are irrelevant). -/

/-- Round the nonnegative fraction `a / b` (with `b > 0`) to the nearest
natural number, ties to even. -/
def rheN (a b : Nat) : Nat :=
  let q := a / b
  let r := a % b
  if 2 * r < b then q
  else if b < 2 * r then q + 1
  else if q % 2 = 0 then q else q + 1

/-- Fuelled structural base-2 logarithm (`Nat.log2` is well-founded and
does not reduce in the kernel): `log2F fuel n` is `⌊log₂ n⌋` for `n ≥ 1`
whenever `n < 2 ^ fuel`. -/
def log2F : Nat → Nat → Nat
  | 0, _ => 0
  | fuel + 1, n => if 2 ≤ n then log2F fuel (n / 2) + 1 else 0

/-- Smallest `k ≥ start` with `b ≤ a * 2 ^ k`, by fuelled search (fuel
1200 covers every binary64 normal magnitude and far beyond). -/
def findNegN (a b : Nat) : Nat → Nat → Nat
  | 0, k => k
  | fuel + 1, k => if b ≤ a * 2 ^ k then k else findNegN a b fuel (k + 1)

/-- Correctly rounded binary64 value of the nonnegative fraction
`a / b` (`b > 0`), returned as a fraction whose denominator is a power
of two: scale to a 53-bit significand, round to nearest-even, rescale.
All values in this development are far inside the normal range, so
subnormals and overflow do not arise. -/
def roundFN (a b : Nat) : Nat × Nat :=
  if a = 0 then (0, 1)
  else if b ≤ a then
    let e := log2F 1200 (a / b)
    if e ≤ 52 then (rheN (a * 2 ^ (52 - e)) b, 2 ^ (52 - e))
    else (rheN a (b * 2 ^ (e - 52)) * 2 ^ (e - 52), 1)
  else
    let k := findNegN a b 1200 1
    (rheN (a * 2 ^ (52 + k)) b, 2 ^ (52 + k))

/-- `int((c / t) * 100) if t > 0 else 0` exactly as Python evaluates it:
a correctly rounded binary64 division, a correctly rounded binary64
multiplication by 100, and `int()` truncation (here on a nonnegative
value, hence floor). -/
def pctFloat (c t : Nat) : Nat :=
  if t = 0 then 0
  else
    let r1 := roundFN c t
    let r2 := roundFN (100 * r1.1) r1.2
    r2.1 / r2.2

/-- Rational value of a `Nat` fraction. -/
def valQ (x : Nat × Nat) : ℚ := (x.1 : ℚ) / (x.2 : ℚ)

/-! ## `analyze_workflow_progress` (`monitor_production_pipeline.py`) -/

/-- One entry of the workflow's `status.nodes` mapping; `phase` is the
optional `phase` field (`node.get('phase', 'Unknown')`). -/
structure NodeEntry where
  name : String
  phase : Option String
  deriving DecidableEq, Repr

/-- The fields of a parsed (non-empty) workflow object that
`analyze_workflow_progress` reads. -/
structure WorkflowData where
  phase : Option String
  creationTimestamp : Option String
  finishedAt : Option String
  nodes : List NodeEntry
  deriving DecidableEq, Repr

/-- The dictionary returned by `analyze_workflow_progress`. -/
structure ProgressSummary where
  workflowStatus : String
  startTime : Option String
  finishTime : Option String
  totalNodes : Nat
  completedNodes : Nat
  runningNodes : Nat
  failedNodes : Nat
  pendingNodes : Nat
  progressPct : Nat
  failedNodeNames : List String
  runningNodeNames : List String
  completedNodeNames : List String
  deriving DecidableEq, Repr

/-- The `for name, node in nodes.items()` classification loop: buckets
`(completed, running, failed, pending)` in iteration order. -/
def bucketize : List NodeEntry →
    List String × List String × List String × List String
  | [] => ([], [], [], [])
  | n :: rest =>
    let (c, r, f, p) := bucketize rest
    let phase := n.phase.getD "Unknown"
    if phase = "Succeeded" then (n.name :: c, r, f, p)
    else if phase = "Running" then (c, n.name :: r, f, p)
    else if phase = "Failed" ∨ phase = "Error" then (c, r, n.name :: f, p)
    else if phase = "Pending" then (c, r, f, n.name :: p)
    else (c, r, f, p)

/-- A workflow snapshot with 100 nodes, 29 of them `Succeeded` and 71
`Running`. -/
def wd100 : WorkflowData :=
  { phase := some "Running", creationTimestamp := none, finishedAt := none,
    nodes :=
      List.replicate 29 { name := "s", phase := some "Succeeded" } ++
        List.replicate 71 { name := "r", phase := some "Running" } }

/-- `analyze_workflow_progress`: input `none` models a falsy
`workflow_data` (Python `None` or an empty dict), which returns `None`;
any other input yields the summary dictionary. -/
def analyze_workflow_progress : Option WorkflowData → Option ProgressSummary
  | none => none
  | some wd =>
    let (c, r, f, p) := bucketize wd.nodes
    let total := wd.nodes.length
    some
      { workflowStatus := wd.phase.getD "Unknown"
        startTime := wd.creationTimestamp
        finishTime := wd.finishedAt
        totalNodes := total
        completedNodes := c.length
        runningNodes := r.length
        failedNodes := f.length
        pendingNodes := p.length
        progressPct := pctFloat c.length total
        failedNodeNames := f
        runningNodeNames := r
        completedNodeNames := c }

/-! ## Polling loops

Each loop body is a step function from the current loop state and the
iteration's external event (HTTP/kubectl observation, a raised
exception, or a keyboard interrupt) to either an exit value or a new
state together with the seconds slept before the next iteration.  A
fuel-indexed runner threads the elapsed-time counter that guards the
bounded loops; `none` means the fuel ran out with the loop still
going. -/

/-- Result of one loop iteration: continue with a new state after
sleeping `sleep` seconds, or leave the loop with value `w`. -/
inductive StepRes (σ ω : Type) where
  | next (s : σ) (sleep : Nat)
  | exit (w : ω)
  deriving DecidableEq, Repr

/-- Runner for a `while elapsed < maxDur` loop.  `tv` is the value the
function returns when the guard fails (the code after the loop);
`extra i` is the wall-clock time iteration `i` spends outside
`time.sleep`.  Returns `none` iff the fuel is exhausted with the loop
still running. -/
def runLoop {σ ω ε : Type} (step : σ → ε → StepRes σ ω) (maxDur : Nat)
    (tv : ω) : Nat → Nat → σ → (Nat → ε) → (Nat → Nat) → Nat → Option ω
  | 0, elapsed, _, _, _, _ =>
    if elapsed < maxDur then none else some tv
  | fuel + 1, elapsed, s, ev, extra, i =>
    if elapsed < maxDur then
      match step s (ev i) with
      | .exit w => some w
      | .next s' slp =>
        runLoop step maxDur tv fuel (elapsed + slp + extra i) s' ev extra (i + 1)
    else some tv

/-- Runner for a `while True` loop (no guard): `none` iff the loop is
still running after `fuel` iterations. -/
def runForever {σ ω ε : Type} (step : σ → ε → StepRes σ ω) :
    Nat → σ → (Nat → ε) → Nat → Option ω
  | 0, _, _, _ => none
  | fuel + 1, s, ev, i =>
    match step s (ev i) with
    | .exit w => some w
    | .next s' _ => runForever step fuel s' ev (i + 1)

/-! ### `monitor_pipeline` (`monitor_production_pipeline.py`) -/

/-- External event of one iteration of `monitor_pipeline`: the workflow
observation (`none` models both a failed `kubectl` call and unparseable
JSON, i.e. `get_workflow_status` returning `None`), a raised exception,
or a keyboard interrupt. -/
inductive MPEvent where
  | status (wd : Option WorkflowData)
  | raised
  | interrupt
  deriving DecidableEq, Repr

/-- Loop state of `monitor_pipeline`: `last_progress` (initially `-1`)
and `iteration` (initially `1`). -/
structure MPState where
  lastProgress : Int
  iteration : Nat
  deriving DecidableEq, Repr

def mpInit : MPState := { lastProgress := -1, iteration := 1 }

/-- The terminal-phase list `['Succeeded', 'Failed', 'Error']`. -/
def terminalPhases : List String := ["Succeeded", "Failed", "Error"]

/-- One iteration of `monitor_pipeline`'s `try` body.  Check interval:
600 s; 24 h bound handled by the runner.  Exit values are the function's
return values (`some true` success, `some false` failure, `none` for the
interrupt return). -/
def stepMP (s : MPState) : MPEvent → StepRes MPState (Option Bool)
  | .interrupt => .exit none
  | .raised => .next { s with iteration := s.iteration + 1 } 600
  | .status wd =>
    match analyze_workflow_progress wd with
    | none =>
      -- should_print is true, print_status_update returns None,
      -- `if not success: return False`
      .exit (some false)
    | some info =>
      let shouldPrint :=
        (info.progressPct : Int) ≠ s.lastProgress ∨ s.iteration % 6 = 1 ∨
          0 < info.failedNodes ∨ info.workflowStatus ∈ terminalPhases
      if shouldPrint then
        if 0 < info.failedNodes then .exit (some false)
        else if info.workflowStatus ∈ terminalPhases then
          .exit (some (info.workflowStatus = "Succeeded"))
        else
          .next { lastProgress := (info.progressPct : Int),
                  iteration := s.iteration + 1 } 600
      else .next { s with iteration := s.iteration + 1 } 600

/-- `monitor_pipeline`: 24-hour guard, 10-minute interval, returns
`None` when the guard expires. -/
def monitor_pipeline (fuel : Nat) (ev : Nat → MPEvent) (extra : Nat → Nat) :
    Option (Option Bool) :=
  runLoop stepMP (24 * 60 * 60) none fuel 0 mpInit ev extra 0

/-- The `__main__` block of `monitor_production_pipeline.py`: exit code
from the monitoring result. -/
def mpExitCode : Option Bool → Nat
  | some true => 0
  | some false => 1
  | none => 2

/-! ### `monitor_pipeline_run` (`submit_pipeline_production.py`) -/

/-- How the `workflow_manifest` field of the run response looks. -/
inductive ManifestCase where
  | absent
  | unparseable
  | parsed (status : Option String) (nodes : List NodeEntry)
  deriving DecidableEq, Repr

/-- One run-status HTTP response: the run's `status` field and its
`workflow_manifest`. -/
structure RunResp where
  status : Option String
  manifest : ManifestCase
  deriving DecidableEq, Repr

inductive SPEvent where
  | resp (r : RunResp)
  | raised
  | interrupt
  deriving DecidableEq, Repr

/-- Loop state of `monitor_pipeline_run`: `last_status` (initially
`None`) and `last_progress` (initially `-1`). -/
structure SPState where
  lastStatus : Option String
  lastProgress : Int
  deriving DecidableEq, Repr

def spInit : SPState := { lastStatus := none, lastProgress := -1 }

/-- Count of nodes whose phase is in `['Succeeded', 'Failed', 'Error']`
(the "completed" count of the v1beta1 monitors). -/
def completedCount (nodes : List NodeEntry) : Nat :=
  (nodes.filter (fun n => (n.phase.getD "Unknown") ∈ terminalPhases)).length

/-- Names of nodes whose phase is exactly `'Failed'`. -/
def failedNames (nodes : List NodeEntry) : List String :=
  (nodes.filter (fun n => n.phase.getD "Unknown" = "Failed")).map (·.name)

/-- One iteration of `monitor_pipeline_run`'s `try` body
(`submit_pipeline_production.py`).  Check interval 600 s; the
`KeyboardInterrupt` handler breaks, after which the function returns
`None`.  Note the terminal-status check sits inside the
`if workflow_manifest:` block and the inner `try`, so a missing or
unparseable manifest never ends the loop. -/
def stepSP (s : SPState) : SPEvent → StepRes SPState (Option Bool)
  | .interrupt => .exit none
  | .raised => .next s 600
  | .resp r =>
    let status := r.status.getD "Unknown"
    match r.manifest with
    | .absent => .next s 600
    | .unparseable => .next s 600
    | .parsed _ nodes =>
      let completed := completedCount nodes
      let failed := failedNames nodes
      let pct := pctFloat completed nodes.length
      if some status ≠ s.lastStatus ∨ (pct : Int) ≠ s.lastProgress then
        if failed ≠ [] then .exit (some false)
        else if status ∈ terminalPhases then
          .exit (some (status = "Succeeded"))
        else .next { lastStatus := some status, lastProgress := (pct : Int) } 600
      else if status ∈ terminalPhases then
        .exit (some (status = "Succeeded"))
      else .next s 600

/-- `monitor_pipeline_run` of `submit_pipeline_production.py`: 24-hour
guard, 10-minute interval, returns `None` when the guard expires. -/
def monitor_pipeline_run (fuel : Nat) (ev : Nat → SPEvent)
    (extra : Nat → Nat) : Option (Option Bool) :=
  runLoop stepSP (24 * 60 * 60) none fuel 0 spInit ev extra 0

/-- Tail of `main` in `submit_pipeline_production.py` (monitoring
enabled): exit code from the monitoring result. -/
def spExitCode : Option Bool → Nat
  | some true => 0
  | some false => 1
  | none => 2

/-! ### `monitor_pipeline` (`submit_pipeline_complete.py`) -/

/-- One iteration's observations: the three `kubectl` reads (each an
`os.popen` output string, empty when the command fails), or an
exception / interrupt. -/
inductive CEvent where
  | obs (status progress message pytorch : String)
  | raised
  | interrupt
  deriving DecidableEq, Repr

/-- Loop state: `last_status` and `last_progress`, both initially
`None`. -/
structure CState where
  lastStatus : Option String
  lastProgress : Option String
  deriving DecidableEq, Repr

def cInit : CState := { lastStatus := none, lastProgress := none }

/-- One iteration of the `submit_pipeline_complete.py` monitor loop.
Check interval 30 s; `monitoring_duration` (the runner's counter) is
incremented by exactly 30 per iteration, on the normal and on the
exception path alike.  `KeyboardInterrupt` returns `False`. -/
def stepC (s : CState) : CEvent → StepRes CState Bool
  | .interrupt => .exit false
  | .raised => .next s 30
  | .obs status progress _ _ =>
    if some status ≠ s.lastStatus ∨ some progress ≠ s.lastProgress then
      if status ∈ terminalPhases then .exit (status = "Succeeded")
      else .next { lastStatus := some status, lastProgress := some progress } 30
    else .next s 30

/-- `monitor_pipeline` of `submit_pipeline_complete.py`: the guard
counter is `monitoring_duration`, which counts exactly 30 per
iteration (so `extra` is the zero stream), bound 4 h; returns `False`
when the guard expires. -/
def monitor_pipeline_c (fuel : Nat) (ev : Nat → CEvent) : Option Bool :=
  runLoop stepC (4 * 60 * 60) false fuel 0 cInit ev (fun _ => 0) 0

/-! ### `monitor_pipeline_run` (`submit_pipeline_nfs_storage.py`) -/

inductive NFSEvent where
  | resp (r : RunResp)
  | raised
  | interrupt
  deriving DecidableEq, Repr

/-- Loop state: `last_status`, initially `None`. -/
structure NFSState where
  lastStatus : Option String
  deriving DecidableEq, Repr

def nfsInit : NFSState := { lastStatus := none }

/-- One iteration of the `while True` monitor loop of
`submit_pipeline_nfs_storage.py`.  Normal iterations sleep 30 s, the
generic exception handler sleeps 60 s; the loop exits only via `break`
(terminal status, or `KeyboardInterrupt`).  The printed progress
percentage does not influence control flow and is not part of the
state. -/
def stepNFS (s : NFSState) : NFSEvent → StepRes NFSState Unit
  | .interrupt => .exit ()
  | .raised => .next s 60
  | .resp r =>
    let status := r.status.getD "Unknown"
    match r.manifest with
    | .absent => .next s 30
    | .unparseable => .next s 30
    | .parsed _ _ =>
      let s' := if some status ≠ s.lastStatus then { lastStatus := some status } else s
      if status ∈ terminalPhases then .exit () else .next s' 30

/-- `monitor_pipeline_run` of `submit_pipeline_nfs_storage.py`:
unbounded (`while True`); `none` means still running after `fuel`
iterations. -/
def monitor_pipeline_run_nfs (fuel : Nat) (ev : Nat → NFSEvent) :
    Option Unit :=
  runForever stepNFS fuel nfsInit ev 0

/-- The fixed check interval of the NFS monitor loop
(`time.sleep(30)  # Check every 30 seconds`). -/
def nfsCheckInterval : Nat := 30

/-- A run-status response that is forever `Running`: the HTTP call
succeeds, the manifest parses, the single node is `Running`. -/
def runningResp : RunResp :=
  { status := some "Running",
    manifest := ManifestCase.parsed (some "Running")
      [{ name := "n1", phase := some "Running" }] }

/-- An event stream on which the run stays `Running` forever and no
exception or interrupt ever occurs. -/
def constRunningEv : Nat → NFSEvent := fun _ => NFSEvent.resp runningResp

/-! ## `get_pipeline_info` (v1beta1 scripts) -/

/-- `needle.isPrefixOf`-based substring test on character lists,
modelling Python's `in` on strings. -/
def listContainsSub (needle : List Char) : List Char → Bool
  | [] => needle.isEmpty
  | c :: rest => needle.isPrefixOf (c :: rest) || listContainsSub needle rest

/-- Python `needle in hay`. -/
def strContainsSub (needle hay : String) : Bool :=
  listContainsSub needle.data hay.data

/-- Python `s.lower()` (ASCII suffices for the names involved). -/
def strLower (s : String) : String := ⟨s.data.map Char.toLower⟩

/-- One entry of the v1beta1 `pipelines` listing: the optional
`display_name` and the (well-formed) `id`. -/
structure PLine where
  displayName : Option String
  id : String
  deriving DecidableEq, Repr

/-- The pipelines-listing call as `get_pipeline_info` sees it: the
request raised / returned an error status (`fail`), or a JSON body
whose `pipelines` key is absent (`ok none`) or holds a list. -/
inductive V1Resp where
  | fail
  | ok (pipelines : Option (List PLine))
  deriving DecidableEq, Repr

/-- Does this pipeline's `display_name` contain `'instructlab'`
case-insensitively (`'instructlab' in pipeline.get('display_name', '').lower()`)? -/
def isInstructlab (p : PLine) : Bool :=
  strContainsSub "instructlab" (strLower (p.displayName.getD ""))

/-- `get_pipeline_info` of `submit_pipeline_nfs_storage.py` and
`submit_pipeline_production.py` (identical code): prefer the first
pipeline whose display name contains `'instructlab'`, otherwise fall
back to the first pipeline of the listing; `None` when the request
fails or the listing is missing or empty. -/
def get_pipeline_info_v1 : V1Resp → Option String
  | .fail => none
  | .ok none => none
  | .ok (some []) => none
  | .ok (some (p :: ps)) =>
    match (p :: ps).find? isInstructlab with
    | some q => some q.id
    | none => some p.id

/-! ## Cluster operations of `fix_granite_image.py` -/

/-- One interaction with the cluster via `oc`. -/
inductive ClusterOp where
  /-- Any `oc get ...` read (workflow JSON/YAML, progress, phase). -/
  | read (what : String)
  /-- `oc delete pod <name> ... --ignore-not-found=true`. -/
  | deletePod (name : String)
  /-- `oc apply -f` of a pod manifest (the workaround pod). -/
  | applyPod (name : String)
  /-- `oc patch workflow ... --type=json` replacing
  `/status/nodes/<node>/phase` fields: the list of `(path, value)`
  replacements. -/
  | patchNodePhases (patches : List (String × String))
  deriving DecidableEq, Repr

/-- Is this operation a read? -/
def ClusterOp.isRead : ClusterOp → Bool
  | .read _ => true
  | _ => false

/-- Is this operation a pod deletion? -/
def ClusterOp.isDeletePod : ClusterOp → Bool
  | .deletePod _ => true
  | _ => false

/-- Is this operation a node-phase patch? -/
def ClusterOp.isPatchPhase : ClusterOp → Bool
  | .patchNodePhases _ => true
  | _ => false

/-- The two hardcoded failing-pod names. -/
def failingPods : List String :=
  [ "instructlab-dpltw-system-container-impl-1650928254",
    "instructlab-dpltw-system-container-impl-3973677185" ]

/-- The name of the workaround pod created by `create_replacement_pods`. -/
def workaroundPod : String := "granite-workaround-1650928254"

/-- The exact patch operations issued by `skip_granite_tasks`. -/
def granitePatch : List (String × String) :=
  [ ("/status/nodes/instructlab-dpltw-system-container-impl-1650928254/phase",
     "Succeeded"),
    ("/status/nodes/instructlab-dpltw-system-container-impl-3973677185/phase",
     "Succeeded") ]

/-- Cluster operations of `create_replacement_pods`, as a function of
whether the `oc apply` succeeded: apply the workaround pod, and on
success delete it again after the wait. -/
def create_replacement_pods_ops (applyOk : Bool) : List ClusterOp :=
  [ClusterOp.applyPod workaroundPod] ++
    (if applyOk then [ClusterOp.deletePod workaroundPod] else [])

/-- Cluster operations of `skip_granite_tasks`, as a function of the
`oc get workflow -o json` outcome (`none`: command failed, the function
returns early; `some ok`: output obtained, `ok` tells whether
`json.loads` succeeded). -/
def skip_granite_tasks_ops (getResult : Option Bool) : List ClusterOp :=
  [ClusterOp.read "workflow-json"] ++
    (match getResult with
     | none => []
     | some false => []  -- JSONDecodeError: no patch issued
     | some true => [ClusterOp.patchNodePhases granitePatch])

/-- Cluster operations of `patch_workflow_image`: delete the two
failing pods, then delegate to `create_replacement_pods`. -/
def patch_workflow_image_ops (applyOk : Bool) : List ClusterOp :=
  failingPods.map ClusterOp.deletePod ++ create_replacement_pods_ops applyOk

/-- Cluster operations of `main` in `fix_granite_image.py`: delete the
two failing pods, run `create_replacement_pods`, then read progress and
phase. -/
def fix_granite_main_ops (applyOk : Bool) : List ClusterOp :=
  failingPods.map ClusterOp.deletePod ++
    create_replacement_pods_ops applyOk ++
    [ClusterOp.read "workflow-progress", ClusterOp.read "workflow-phase"]

/-! ## Helper lemmas -/

/-- `findToken` returns `None` when no user entry with the given name
carries a token. -/
theorem findToken_eq_none {us : List UserEntry} {nm : String}
    (h : ∀ u ∈ us, u.name = nm → u.token = none) : findToken us nm = none := by
  induction us with
  | nil => rfl
  | cons v rest ih =>
    simp only [findToken]
    by_cases hv : v.name = nm ∧ v.token.isSome
    · rcases hv with ⟨h1, h2⟩
      have := h v (by simp) h1
      rw [this] at h2
      simp at h2
    · rw [if_neg hv]
      exact ih (fun u hu => h u (by simp [hu]))

/-- `findToken` returns the token of the unique user entry with the
given name, when that entry has one. -/
theorem findToken_eq_some {us : List UserEntry} {nm : String} {u : UserEntry}
    {t : String} (hmem : u ∈ us) (hname : u.name = nm)
    (htok : u.token = some t) (huniq : ∀ v ∈ us, v.name = nm → v = u) :
    findToken us nm = some t := by
  induction us with
  | nil => cases hmem
  | cons v rest ih =>
    simp only [findToken]
    by_cases hv : v.name = nm ∧ v.token.isSome
    · have hvu : v = u := huniq v (by simp) hv.1
      rw [if_pos hv, hvu, htok]
    · rw [if_neg hv]
      have hvu : v ≠ u := by
        intro hvu
        exact hv (by rw [hvu, hname, htok]; simp)
      have hmem' : u ∈ rest := by
        rcases List.mem_cons.mp hmem with h | h
        · exact absurd h.symm hvu
        · exact h
      exact ih hmem' (fun w hw hwn => huniq w (by simp [hw]) hwn)

/-! ## Claim theorems -/

/-- C2 counterexample: `get_bearer_token` in
`submit_pipeline_nfs_storage.py` / `submit_pipeline_production.py` does
not return `None`/`False` on a failed subprocess call — it terminates
the process with `sys.exit(1)`. -/
theorem claim2_counterexample :
    get_bearer_token (ProcResult.failure "oc: error") = ProcOutcome.exits 1 ∧
      (get_bearer_token (ProcResult.failure "oc: error")).isExit = true := by
  exact ⟨rfl, rfl⟩

/-- C2 amended: failing subprocess/HTTP calls are caught broadly and
yield a soft failure (`None`) from `run_kubectl` / `run_oc_command`,
`get_dspa_info`, and `get_pipeline_info` — except `get_bearer_token`
and `get_dspa_route` in `submit_pipeline_nfs_storage.py` and
`submit_pipeline_production.py`, which terminate the process with exit
code 1 on a failed `oc` call. -/
theorem claim2_amended :
    (∀ e, run_kubectl (ProcResult.failure e) = none) ∧
    (get_dspa_info none = none) ∧
    (get_pipeline_info_v1 V1Resp.fail = none) ∧
    (∀ e, get_bearer_token (ProcResult.failure e) = ProcOutcome.exits 1) ∧
    (∀ e, get_dspa_route (ProcResult.failure e) = ProcOutcome.exits 1) := by
  exact ⟨fun _ => rfl, rfl, rfl, fun _ => rfl, fun _ => rfl⟩

/-- C5: in `monitor_production_pipeline.py`'s `__main__` block and in
`main` of `submit_pipeline_production.py`, the process exit code is 0
when monitoring returned success (`True`), 1 when it returned failure
(`False`), and 2 when it returned neither (timeout or interruption,
`None`). -/
theorem claim5_exit_codes :
    mpExitCode (some true) = 0 ∧ mpExitCode (some false) = 1 ∧
      mpExitCode none = 2 ∧ spExitCode (some true) = 0 ∧
      spExitCode (some false) = 1 ∧ spExitCode none = 2 := by
  decide

/-- C7 counterexample: in the `submit_pipeline_nfs_storage.py` monitor
loop a generic exception does not sleep for the fixed 30-second check
interval — the handler sleeps 60 seconds. -/
theorem claim7_counterexample :
    stepNFS nfsInit NFSEvent.raised = StepRes.next nfsInit 60 ∧
      60 ≠ nfsCheckInterval := by
  decide

/-- C7 amended: in every polling-loop iteration of the cited monitoring
functions, a generic exception is caught and the loop sleeps a fixed
delay and retries — equal to the 600-second check interval in
`monitor_production_pipeline.py` and `submit_pipeline_production.py`,
but 60 seconds (twice the 30-second check interval) in
`submit_pipeline_nfs_storage.py`; the loop never exits because of such
an exception. -/
theorem claim7_amended :
    (∀ s, stepMP s MPEvent.raised =
      StepRes.next { s with iteration := s.iteration + 1 } 600) ∧
    (∀ s, stepSP s SPEvent.raised = StepRes.next s 600) ∧
    (∀ s, stepNFS s NFSEvent.raised = StepRes.next s 60) := by
  exact ⟨fun _ => rfl, fun _ => rfl, fun _ => rfl⟩

/-- C8: a `KeyboardInterrupt` during an iteration exits each monitoring
loop immediately (returning `None` in `monitor_production_pipeline.py`
and `submit_pipeline_production.py`, `False` in
`submit_pipeline_complete.py`) instead of sleeping and retrying, and it
is the only non-observation event that exits a loop — a generic
exception never does. -/
theorem claim8_interrupt :
    (∀ s, stepMP s MPEvent.interrupt = StepRes.exit none) ∧
    (∀ s, stepSP s SPEvent.interrupt = StepRes.exit none) ∧
    (∀ s, stepC s CEvent.interrupt = StepRes.exit false) ∧
    (∀ s w, stepMP s MPEvent.raised ≠ StepRes.exit w) ∧
    (∀ s w, stepSP s SPEvent.raised ≠ StepRes.exit w) ∧
    (∀ s w, stepC s CEvent.raised ≠ StepRes.exit w) := by
  refine ⟨fun _ => rfl, fun _ => rfl, fun _ => rfl, ?_, ?_, ?_⟩
  all_goals intro s w h; cases h

/-- C10: in the v1beta1 scripts, when the pipelines listing is
non-empty but no display name contains `'instructlab'`
case-insensitively, `get_pipeline_info` returns the id of the first
pipeline rather than `None`; it returns `None` only when the request
fails, the `pipelines` key is missing, or the list is empty. -/
theorem claim10_fallback :
    (∀ (p : PLine) (ps : List PLine),
      (∀ q ∈ p :: ps, isInstructlab q = false) →
      get_pipeline_info_v1 (V1Resp.ok (some (p :: ps))) = some p.id) ∧
    (∀ r, get_pipeline_info_v1 r = none →
      r = V1Resp.fail ∨ r = V1Resp.ok none ∨ r = V1Resp.ok (some [])) := by
  constructor
  · intro p ps hnone
    have hfind : (p :: ps).find? isInstructlab = none := by
      rw [List.find?_eq_none]
      intro q hq
      simp [hnone q hq]
    simp [get_pipeline_info_v1, hfind]
  · intro r h
    match r with
    | .fail => exact Or.inl rfl
    | .ok none => exact Or.inr (Or.inl rfl)
    | .ok (some []) => exact Or.inr (Or.inr rfl)
    | .ok (some (p :: ps)) =>
      simp only [get_pipeline_info_v1] at h
      split at h <;> cases h

/-- C10 witness: a non-empty listing with no InstructLab match yields
the first pipeline's id. -/
theorem claim10_fallback_witness :
    get_pipeline_info_v1 (V1Resp.ok (some
      [{ displayName := some "Other Pipeline", id := "id-1" },
       { displayName := some "Another", id := "id-2" }])) = some "id-1" :=
  claim10_fallback.1
    { displayName := some "Other Pipeline", id := "id-1" }
    [{ displayName := some "Another", id := "id-2" }]
    (by decide)

/-- C6: `get_openshift_token` returns the `token` field of the user
entry referenced by the kubeconfig's `current-context`, and returns
`None` whenever reading/parsing raises, there is no (or an empty)
`current-context`, no context entry with that name, or no user entry
with the referenced name carrying a `token` field. -/
theorem claim6_get_openshift_token :
    (get_openshift_token none = none) ∧
    (∀ k : Kubeconfig,
      k.currentContext = none ∨ k.currentContext = some "" →
      get_openshift_token (some k) = none) ∧
    (∀ (k : Kubeconfig) (cc : String), k.currentContext = some cc → cc ≠ "" →
      k.contexts.find? (fun c => c.name = cc) = none →
      get_openshift_token (some k) = none) ∧
    (∀ (k : Kubeconfig) (cc : String) (ce : CtxEntry),
      k.currentContext = some cc → cc ≠ "" →
      k.contexts.find? (fun c => c.name = cc) = some ce →
      (∀ u ∈ k.users, u.name = ce.user → u.token = none) →
      get_openshift_token (some k) = none) ∧
    (∀ (k : Kubeconfig) (cc : String) (ce : CtxEntry) (u : UserEntry)
      (t : String),
      k.currentContext = some cc → cc ≠ "" →
      k.contexts.find? (fun c => c.name = cc) = some ce →
      u ∈ k.users → u.name = ce.user → u.token = some t →
      (∀ v ∈ k.users, v.name = ce.user → v = u) →
      get_openshift_token (some k) = some t) := by
  refine ⟨rfl, ?_, ?_, ?_, ?_⟩
  · intro k hk
    rcases hk with h | h <;> simp [get_openshift_token, h]
  · intro k cc hcc hne hfind
    simp [get_openshift_token, hcc, hne, hfind]
  · intro k cc ce hcc hne hfind hnone
    simp [get_openshift_token, hcc, hne, hfind]
    exact findToken_eq_none hnone
  · intro k cc ce u t hcc hne hfind hmem hname htok huniq
    simp [get_openshift_token, hcc, hne, hfind]
    exact findToken_eq_some hmem hname htok huniq

/-- C6 witness: a concrete kubeconfig whose current context references
user `alice`, whose entry holds a token. -/
theorem claim6_get_openshift_token_witness :
    get_openshift_token (some
      { currentContext := some "prod",
        contexts := [{ name := "dev", user := "bob" },
                     { name := "prod", user := "alice" }],
        users := [{ name := "bob", token := none },
                  { name := "alice", token := some "sha256~abc" }] }) =
      some "sha256~abc" :=
  claim6_get_openshift_token.2.2.2.2
    { currentContext := some "prod",
      contexts := [{ name := "dev", user := "bob" },
                   { name := "prod", user := "alice" }],
      users := [{ name := "bob", token := none },
                { name := "alice", token := some "sha256~abc" }] }
    "prod" { name := "prod", user := "alice" }
    { name := "alice", token := some "sha256~abc" } "sha256~abc"
    rfl (by decide) (by decide) (by decide) rfl rfl (by decide)

/-- A `while elapsed < maxDur` loop whose every iteration sleeps at
least `interval` seconds returns within `fuel` iterations once
`maxDur ≤ elapsed + fuel * interval`. -/
theorem runLoop_total {σ ω ε : Type} (step : σ → ε → StepRes σ ω)
    (maxDur : Nat) (tv : ω) (interval : Nat)
    (hstep : ∀ s e s' slp, step s e = StepRes.next s' slp → interval ≤ slp) :
    ∀ (fuel elapsed : Nat) (s : σ) (ev : Nat → ε) (extra : Nat → Nat)
      (i : Nat), maxDur ≤ elapsed + fuel * interval →
      (runLoop step maxDur tv fuel elapsed s ev extra i).isSome = true := by
  intro fuel
  induction fuel with
  | zero =>
    intro elapsed s ev extra i h
    simp only [runLoop]
    have : ¬ elapsed < maxDur := by omega
    simp [this]
  | succ n ih =>
    intro elapsed s ev extra i h
    simp only [runLoop]
    by_cases hlt : elapsed < maxDur
    · rw [if_pos hlt]
      cases hse : step s (ev i) with
      | exit w => simp
      | next s' slp =>
        have hslp := hstep s (ev i) s' slp hse
        have hmul : (n + 1) * interval = n * interval + interval :=
          Nat.succ_mul n interval
        exact ih (elapsed + slp + extra i) s' ev extra (i + 1) (by omega)
    · simp [hlt]

/-- Every continuing iteration of `stepMP` sleeps exactly 600 s. -/
theorem stepMP_sleep :
    ∀ (s : MPState) (e : MPEvent) (s' : MPState) (slp : Nat),
      stepMP s e = StepRes.next s' slp → 600 ≤ slp := by
  intro s e s' slp h
  cases e with
  | interrupt => cases h
  | raised => cases h; omega
  | status wd =>
    rcases ha : analyze_workflow_progress wd with _ | info
    · simp only [stepMP, ha] at h
      cases h
    · simp only [stepMP, ha] at h
      split_ifs at h <;> (cases h; omega)

/-- Every continuing iteration of `stepC` sleeps exactly 30 s. -/
theorem stepC_sleep :
    ∀ (s : CState) (e : CEvent) (s' : CState) (slp : Nat),
      stepC s e = StepRes.next s' slp → 30 ≤ slp := by
  intro s e s' slp h
  cases e with
  | interrupt => cases h
  | raised => cases h; omega
  | obs st pr msg py =>
    simp only [stepC] at h
    split at h
    · split at h
      · cases h
      · cases h; omega
    · cases h; omega

/-- C1 counterexample: the monitor loop of
`submit_pipeline_nfs_storage.py` is `while True` with no wall-clock
bound — on a stream where the workflow never reaches a terminal phase
and no exception escapes, it is still running after 2881 iterations,
i.e. after more than 24 hours of 30-second sleeps (and a fortiori more
than 4 hours). -/
theorem claim1_counterexample :
    monitor_pipeline_run_nfs 2881 constRunningEv = none ∧
      24 * 60 * 60 < 2881 * nfsCheckInterval := by
  constructor
  · have hrun : ∀ (n i : Nat) (st : NFSState),
        st = nfsInit ∨ st = { lastStatus := some "Running" } →
        runForever stepNFS n st constRunningEv i = none := by
      intro n
      induction n with
      | zero => intro i st _; rfl
      | succ m ih =>
        intro i st hst
        rcases hst with rfl | rfl
        · have hstep : stepNFS nfsInit (NFSEvent.resp runningResp) =
              StepRes.next { lastStatus := some "Running" } 30 := by decide
          simp only [runForever, constRunningEv]
          rw [hstep]
          exact ih (i + 1) _ (Or.inr rfl)
        · have hstep : stepNFS { lastStatus := some "Running" }
              (NFSEvent.resp runningResp) =
              StepRes.next { lastStatus := some "Running" } 30 := by decide
          simp only [runForever, constRunningEv]
          rw [hstep]
          exact ih (i + 1) _ (Or.inr rfl)
    exact hrun 2881 0 nfsInit (Or.inl rfl)
  · decide

/-- C1 amended: the time-bounded monitors do terminate for every event
stream — `monitor_pipeline` of `monitor_production_pipeline.py` within
144 iterations (24 h of 600-second intervals) and `monitor_pipeline` of
`submit_pipeline_complete.py` within 480 iterations (4 h of 30-second
intervals) — while `monitor_pipeline_run` of
`submit_pipeline_nfs_storage.py` has no wall-clock bound (see the
counterexample). -/
theorem claim1_amended :
    (∀ (ev : Nat → MPEvent) (extra : Nat → Nat),
      (monitor_pipeline 144 ev extra).isSome = true) ∧
    (∀ ev : Nat → CEvent, (monitor_pipeline_c 480 ev).isSome = true) := by
  constructor
  · intro ev extra
    exact runLoop_total stepMP (24 * 60 * 60) none 600 stepMP_sleep
      144 0 mpInit ev extra 0 (by omega)
  · intro ev
    exact runLoop_total stepC (4 * 60 * 60) false 30 stepC_sleep
      480 0 cInit ev (fun _ => 0) 0 (by omega)

/-! ### Association-list lemmas for the payload frame property -/

theorem lookupA_append_none {A : List (String × PValue)} {k : String}
    (h : lookupA A k = none) (B : List (String × PValue)) :
    lookupA (A ++ B) k = lookupA B k := by
  induction A with
  | nil => rfl
  | cons kv rest ih =>
    simp only [lookupA, List.cons_append] at h ⊢
    split at h
    · cases h
    · rw [if_neg (by assumption)]
      exact ih h

theorem lookupA_append_some {A : List (String × PValue)} {k : String}
    {v : PValue} (h : lookupA A k = some v) (B : List (String × PValue)) :
    lookupA (A ++ B) k = some v := by
  induction A with
  | nil => cases h
  | cons kv rest ih =>
    simp only [lookupA, List.cons_append] at h ⊢
    split at h
    · rw [if_pos (by assumption)]; exact h
    · rw [if_neg (by assumption)]
      exact ih h

/-- `mapUpd` on a cons, by cases on whether the head key occurs in `u`. -/
theorem mapUpd_cons_of_none {u : List (String × PValue)}
    {kv : String × PValue} (h : lookupA u kv.1 = none)
    (rest : List (String × PValue)) :
    mapUpd (kv :: rest) u = kv :: mapUpd rest u := by
  simp [mapUpd, h]

theorem mapUpd_cons_of_some {u : List (String × PValue)}
    {kv : String × PValue} {w : PValue} (h : lookupA u kv.1 = some w)
    (rest : List (String × PValue)) :
    mapUpd (kv :: rest) u = (kv.1, w) :: mapUpd rest u := by
  simp [mapUpd, h]

/-- `mapUpd` leaves a key alone when it does not occur in `u`. -/
theorem lookupA_mapUpd_of_none {u : List (String × PValue)} {k : String}
    (hu : lookupA u k = none) (d : List (String × PValue)) :
    lookupA (mapUpd d u) k = lookupA d k := by
  induction d with
  | nil => rfl
  | cons kv rest ih =>
    cases hmatch : lookupA u kv.1 with
    | none =>
      rw [mapUpd_cons_of_none hmatch]
      simp only [lookupA]
      by_cases hk : kv.1 = k
      · rw [if_pos hk, if_pos hk]
      · rw [if_neg hk, if_neg hk]; exact ih
    | some w =>
      rw [mapUpd_cons_of_some hmatch]
      simp only [lookupA]
      by_cases hk : kv.1 = k
      · exfalso
        rw [hk] at hmatch
        rw [hmatch] at hu
        cases hu
      · rw [if_neg hk, if_neg hk]; exact ih

/-- `mapUpd` replaces the value of a key of `d` that occurs in `u`. -/
theorem lookupA_mapUpd_of_some {u : List (String × PValue)} {k : String}
    {v : PValue} (hu : lookupA u k = some v) :
    ∀ d : List (String × PValue), (lookupA d k).isSome = true →
    lookupA (mapUpd d u) k = some v := by
  intro d
  induction d with
  | nil => intro h; cases h
  | cons kv rest ih =>
    intro hd
    cases hmatch : lookupA u kv.1 with
    | none =>
      rw [mapUpd_cons_of_none hmatch]
      simp only [lookupA] at hd ⊢
      by_cases hk : kv.1 = k
      · exfalso
        rw [hk] at hmatch
        rw [hmatch] at hu
        cases hu
      · rw [if_neg hk] at hd
        rw [if_neg hk]
        exact ih hd
    | some w =>
      rw [mapUpd_cons_of_some hmatch]
      simp only [lookupA] at hd ⊢
      by_cases hk : kv.1 = k
      · rw [if_pos hk]
        rw [hk] at hmatch
        rw [hmatch] at hu
        exact hu
      · rw [if_neg hk] at hd
        rw [if_neg hk]
        exact ih hd

/-- A key absent from `u` is absent from any filtering of `u`. -/
theorem lookupA_filter_none {u : List (String × PValue)} {k : String}
    (hu : lookupA u k = none) (p : String × PValue → Bool) :
    lookupA (u.filter p) k = none := by
  induction u with
  | nil => rfl
  | cons kv rest ih =>
    simp only [lookupA] at hu
    split at hu
    · cases hu
    · simp only [List.filter_cons]
      cases p kv
      · simp only [Bool.false_eq_true, if_false]
        exact ih hu
      · simp only [if_true, lookupA]
        rw [if_neg (by assumption)]
        exact ih hu

/-- `dict.update` with a dict not containing `k` does not change `k`. -/
theorem lookupA_dictUpdate_of_none {u : List (String × PValue)} {k : String}
    (hu : lookupA u k = none) (d : List (String × PValue)) :
    lookupA (dictUpdate d u) k = lookupA d k := by
  unfold dictUpdate
  cases hd : lookupA d k with
  | none =>
    rw [lookupA_append_none (by rw [lookupA_mapUpd_of_none hu d]; exact hd)]
    exact lookupA_filter_none hu _
  | some v =>
    exact lookupA_append_some (by rw [lookupA_mapUpd_of_none hu d]; exact hd) _

/-- `dict.update` replaces a key of `d` that occurs in `u`. -/
theorem lookupA_dictUpdate_of_some {u : List (String × PValue)} {k : String}
    {v : PValue} (hu : lookupA u k = some v) (d : List (String × PValue))
    (hd : (lookupA d k).isSome = true) :
    lookupA (dictUpdate d u) k = some v := by
  unfold dictUpdate
  exact lookupA_append_some (lookupA_mapUpd_of_some hu d hd) _

/-- `dict.update` with an empty dict changes nothing. -/
theorem dictUpdate_nil (d : List (String × PValue)) : dictUpdate d [] = d := by
  unfold dictUpdate mapUpd
  simp [lookupA]

/-- `payloadParams` is `dict.update` of the defaults with the CLI
overrides, also when no override is given. -/
theorem payloadParams_eq (r b o : Option String) :
    payloadParams r b o = dictUpdate default_params (buildCustom r b o) := by
  unfold payloadParams
  by_cases h : (buildCustom r b o).isEmpty
  · rw [if_pos h, List.isEmpty_iff.mp h, dictUpdate_nil]
  · rw [if_neg h]

/-- A key other than the three override keys never occurs in
`custom_params`. -/
theorem lookupA_buildCustom_none (r b o : Option String) (k : String)
    (h1 : k ≠ "sdg_repo_url") (h2 : k ≠ "sdg_base_model")
    (h3 : k ≠ "output_model_name") :
    lookupA (buildCustom r b o) k = none := by
  have h1' : "sdg_repo_url" ≠ k := Ne.symm h1
  have h2' : "sdg_base_model" ≠ k := Ne.symm h2
  have h3' : "output_model_name" ≠ k := Ne.symm h3
  rcases r with _ | s <;> rcases b with _ | s' <;> rcases o with _ | s'' <;>
    simp only [buildCustom] <;> (try split_ifs) <;>
    simp [lookupA, h1', h2', h3']

/-- C3: in `submit_pipeline.py` the submitted `runtime_config`
parameters are the hardcoded `default_params` with only the keys
`sdg_repo_url`, `sdg_base_model` and `output_model_name` replaced by
the provided CLI overrides: every other key keeps its hardcoded
default for every choice of overrides, and each provided (non-empty)
override replaces exactly its own key. -/
theorem claim3_payload_frame :
    (∀ (r b o : Option String) (k : String),
      k ≠ "sdg_repo_url" → k ≠ "sdg_base_model" → k ≠ "output_model_name" →
      lookupA (payloadParams r b o) k = lookupA default_params k) ∧
    (∀ (s : String) (b o : Option String), s ≠ "" →
      lookupA (payloadParams (some s) b o) "sdg_repo_url" =
        some (PValue.pstr s)) ∧
    (∀ (r : Option String) (s : String) (o : Option String), s ≠ "" →
      lookupA (payloadParams r (some s) o) "sdg_base_model" =
        some (PValue.pstr s)) ∧
    (∀ (r b : Option String) (s : String), s ≠ "" →
      lookupA (payloadParams r b (some s)) "output_model_name" =
        some (PValue.pstr s)) := by
  refine ⟨?_, ?_, ?_, ?_⟩
  · intro r b o k h1 h2 h3
    rw [payloadParams_eq]
    exact lookupA_dictUpdate_of_none (lookupA_buildCustom_none r b o k h1 h2 h3) _
  · intro s b o hs
    rw [payloadParams_eq]
    refine lookupA_dictUpdate_of_some ?_ _ (by decide)
    rcases b with _ | s' <;> rcases o with _ | s'' <;>
      simp only [buildCustom, if_neg hs] <;> (try split_ifs) <;>
      simp [lookupA]
  · intro r s o hs
    rw [payloadParams_eq]
    refine lookupA_dictUpdate_of_some ?_ _ (by decide)
    rcases r with _ | s' <;> rcases o with _ | s'' <;>
      simp only [buildCustom, if_neg hs] <;> (try split_ifs) <;>
      simp [lookupA]
  · intro r b s hs
    rw [payloadParams_eq]
    refine lookupA_dictUpdate_of_some ?_ _ (by decide)
    rcases r with _ | s' <;> rcases b with _ | s'' <;>
      simp only [buildCustom, if_neg hs] <;> (try split_ifs) <;>
      simp [lookupA]

/-- C3 witness: with only `--repo-url` provided, an unrelated parameter
(`sdg_scale_factor`) keeps its hardcoded default. -/
theorem claim3_payload_frame_witness :
    lookupA (payloadParams (some "https://example.com/taxonomy.git") none none)
        "sdg_scale_factor" =
      lookupA default_params "sdg_scale_factor" :=
  claim3_payload_frame.1 (some "https://example.com/taxonomy.git") none none
    "sdg_scale_factor" (by decide) (by decide) (by decide)

/-! ### Bounds for the binary64 percentage computation -/

/-- Round-to-nearest never overshoots by more than half. -/
theorem rheN_le (a b : Nat) (hb : 0 < b) :
    (rheN a b : ℚ) ≤ (a : ℚ) / b + 1 / 2 := by
  have hbq : (0 : ℚ) < (b : ℚ) := by exact_mod_cast hb
  have hmod : b * (a / b) + a % b = a := Nat.div_add_mod a b
  have hcast : ((b : ℚ)) * ((a / b : Nat) : ℚ) + ((a % b : Nat) : ℚ) =
      (a : ℚ) := by exact_mod_cast congrArg (Nat.cast (R := ℚ)) hmod
  have hval : (a : ℚ) / b = ((a / b : Nat) : ℚ) + ((a % b : Nat) : ℚ) / b := by
    field_simp
    linarith
  have hfr0 : (0 : ℚ) ≤ ((a % b : Nat) : ℚ) / b := by positivity
  have hhalf : ∀ h2 : 2 * (a % b) = b, ((a % b : Nat) : ℚ) / b = 1 / 2 := by
    intro h2
    have h2q : (2 : ℚ) * ((a % b : Nat) : ℚ) = (b : ℚ) := by exact_mod_cast h2
    rw [div_eq_div_iff hbq.ne' (by norm_num : (2 : ℚ) ≠ 0)]
    linarith
  simp only [rheN]
  split_ifs with h1 h2 h3
  · rw [hval]
    linarith
  · have hge : (1 : ℚ) / 2 ≤ ((a % b : Nat) : ℚ) / b := by
      rw [div_le_div_iff₀ (by norm_num) hbq]
      have : (b : ℚ) ≤ 2 * ((a % b : Nat) : ℚ) := by exact_mod_cast h2.le
      linarith
    push_cast
    rw [hval]
    linarith
  · have heq := hhalf (by omega)
    rw [hval, heq]
    linarith
  · have heq := hhalf (by omega)
    push_cast
    rw [hval, heq]
    linarith

/-- `log2F` is bounded by any exponent whose power exceeds the input. -/
theorem log2F_le : ∀ (fuel n j : Nat), n < 2 ^ (j + 1) → log2F fuel n ≤ j := by
  intro fuel
  induction fuel with
  | zero => intro n j _; exact Nat.zero_le j
  | succ m ih =>
    intro n j h
    simp only [log2F]
    split_ifs with h2
    · cases j with
      | zero =>
        have h21 : (2 : Nat) ^ (0 + 1) = 2 := by norm_num
        omega
      | succ j' =>
        have hdiv : n / 2 < 2 ^ (j' + 1) := by
          rw [Nat.div_lt_iff_lt_mul (by norm_num)]
          have : (2 : Nat) ^ (j' + 1 + 1) = 2 ^ (j' + 1) * 2 := by ring
          omega
        have := ih (n / 2) j' hdiv
        omega
    · omega

/-- A scaled-and-rounded fraction is within half a unit in the last
place of the exact value. -/
theorem rheN_scaled_le (a b m : Nat) (hb : 0 < b) (hm : 0 < m) :
    ((rheN (a * m) b : Nat) : ℚ) / (m : ℚ) ≤
      (a : ℚ) / b + (1 / 2) / (m : ℚ) := by
  have hmq : (0 : ℚ) < (m : ℚ) := by exact_mod_cast hm
  have hr := rheN_le (a * m) b hb
  push_cast at hr
  calc ((rheN (a * m) b : Nat) : ℚ) / m
      ≤ ((a : ℚ) * m / b + 1 / 2) / m := by gcongr
    _ = (a : ℚ) / b + (1 / 2) / m := by field_simp; ring

/-- The denominator produced by `roundFN` is positive. -/
theorem roundFN_den_pos (a b : Nat) : 0 < (roundFN a b).2 := by
  unfold roundFN
  dsimp only
  split_ifs <;> dsimp only <;> positivity

/-- Half a unit in the place of a power of two at least `2⁴⁶` is at
most `2⁻⁴⁷`. -/
theorem half_ulp_le (m : Nat) (hm : 46 ≤ m) :
    (1 / 2 : ℚ) / (2 : ℚ) ^ m ≤ 1 / 2 ^ 47 := by
  have hpow46 : (2 : ℚ) ^ 46 ≤ (2 : ℚ) ^ m :=
    pow_le_pow_right₀ (by norm_num) hm
  have h46 : (1 / 2 : ℚ) / (2 : ℚ) ^ m ≤ (1 / 2 : ℚ) / (2 : ℚ) ^ 46 := by
    gcongr
  have : (1 / 2 : ℚ) / (2 : ℚ) ^ 46 = 1 / 2 ^ 47 := by norm_num
  linarith

/-- The binary64 rounding of a nonnegative fraction below 101 exceeds
the exact value by less than `2⁻⁴⁷`. -/
theorem roundFN_val_le (a b : Nat) (hb : 0 < b)
    (hlt : (a : ℚ) / b < 101) :
    valQ (roundFN a b) ≤ (a : ℚ) / b + 1 / 2 ^ 47 := by
  have hbq : (0 : ℚ) < (b : ℚ) := by exact_mod_cast hb
  have hdiv100 : a / b ≤ 100 := by
    have hab : a < 101 * b := by
      have := (div_lt_iff₀ hbq).mp hlt
      exact_mod_cast this
    have := (Nat.div_lt_iff_lt_mul hb).mpr (by omega : a < 101 * b)
    omega
  have he6 : log2F 1200 (a / b) ≤ 6 := by
    apply log2F_le
    have : (2 : Nat) ^ (6 + 1) = 128 := by norm_num
    omega
  unfold roundFN valQ
  dsimp only
  split_ifs with ha hba he
  · subst ha
    simp only [Nat.cast_zero, Nat.cast_one, zero_div, Nat.cast_ofNat]
    positivity
  · -- normal case with exponent e ≤ 52
    dsimp only
    have hm : 0 < 2 ^ (52 - log2F 1200 (a / b)) :=
      Nat.pos_pow_of_pos _ (by norm_num)
    have hstep := rheN_scaled_le a b (2 ^ (52 - log2F 1200 (a / b))) hb hm
    have h46 := half_ulp_le (52 - log2F 1200 (a / b)) (by omega)
    have hc2 : ((2 ^ (52 - log2F 1200 (a / b)) : Nat) : ℚ) =
        (2 : ℚ) ^ (52 - log2F 1200 (a / b)) := by push_cast; rfl
    refine le_trans hstep ?_
    rw [hc2]
    linarith
  · -- exponent above 52 cannot happen below 101
    omega
  · -- subunit case, exponent `-k`
    dsimp only
    have hm : 0 < 2 ^ (52 + findNegN a b 1200 1) :=
      Nat.pos_pow_of_pos _ (by norm_num)
    have hstep := rheN_scaled_le a b (2 ^ (52 + findNegN a b 1200 1)) hb hm
    have h46 := half_ulp_le (52 + findNegN a b 1200 1) (by omega)
    have hc2 : ((2 ^ (52 + findNegN a b 1200 1) : Nat) : ℚ) =
        (2 : ℚ) ^ (52 + findNegN a b 1200 1) := by push_cast; rfl
    refine le_trans hstep ?_
    rw [hc2]
    linarith

/-- The Python float percentage never exceeds 100 when the numerator is
at most the denominator. -/
theorem pctFloat_le_100 (c t : Nat) (h : c ≤ t) : pctFloat c t ≤ 100 := by
  unfold pctFloat
  dsimp only
  split_ifs with ht
  · omega
  · have ht' : 0 < t := Nat.pos_of_ne_zero ht
    have htq : (0 : ℚ) < (t : ℚ) := by exact_mod_cast ht'
    have hct : (c : ℚ) / t ≤ 1 := by
      rw [div_le_one htq]
      exact_mod_cast h
    have h1 := roundFN_val_le c t ht' (by linarith)
    have hd1 : 0 < (roundFN c t).2 := roundFN_den_pos c t
    have hd1q : (0 : ℚ) < ((roundFN c t).2 : ℚ) := by exact_mod_cast hd1
    have hv1 : ((roundFN c t).1 : ℚ) / ((roundFN c t).2 : ℚ) ≤
        1 + 1 / 2 ^ 47 := by
      have : valQ (roundFN c t) ≤ 1 + 1 / 2 ^ 47 := le_trans h1 (by linarith)
      unfold valQ at this
      exact this
    have hy100 : ((100 * (roundFN c t).1 : Nat) : ℚ) /
        ((roundFN c t).2 : ℚ) ≤ 100 + 100 / 2 ^ 47 := by
      push_cast
      rw [mul_div_assoc]
      linarith
    have hy : ((100 * (roundFN c t).1 : Nat) : ℚ) /
        ((roundFN c t).2 : ℚ) < 101 := by
      have : (100 : ℚ) + 100 / 2 ^ 47 < 101 := by norm_num
      linarith
    have h2 := roundFN_val_le (100 * (roundFN c t).1) (roundFN c t).2 hd1 hy
    have hd2 : 0 < (roundFN (100 * (roundFN c t).1) (roundFN c t).2).2 :=
      roundFN_den_pos _ _
    have hd2q : (0 : ℚ) <
        ((roundFN (100 * (roundFN c t).1) (roundFN c t).2).2 : ℚ) := by
      exact_mod_cast hd2
    have hv2 : valQ (roundFN (100 * (roundFN c t).1) (roundFN c t).2) < 101 := by
      have hsmall : (100 : ℚ) + 100 / 2 ^ 47 + 1 / 2 ^ 47 < 101 := by norm_num
      linarith
    unfold valQ at hv2
    have hlt : ((roundFN (100 * (roundFN c t).1) (roundFN c t).2).1 : ℚ) <
        101 * ((roundFN (100 * (roundFN c t).1) (roundFN c t).2).2 : ℚ) :=
      (div_lt_iff₀ hd2q).mp hv2
    have hltn : (roundFN (100 * (roundFN c t).1) (roundFN c t).2).1 <
        101 * (roundFN (100 * (roundFN c t).1) (roundFN c t).2).2 := by
      exact_mod_cast hlt
    have hfin : (roundFN (100 * (roundFN c t).1) (roundFN c t).2).1 /
        (roundFN (100 * (roundFN c t).1) (roundFN c t).2).2 < 101 :=
      (Nat.div_lt_iff_lt_mul hd2).mpr hltn
    omega

/-- Sum of the four bucket sizes is at most the number of nodes (each
node lands in at most one bucket). -/
theorem bucketize_sum_le : ∀ (ns : List NodeEntry) (c r f p : List String),
    bucketize ns = (c, r, f, p) →
    c.length + r.length + f.length + p.length ≤ ns.length := by
  intro ns
  induction ns with
  | nil =>
    intro c r f p h
    cases h
    simp
  | cons n rest ih =>
    intro c r f p h
    rcases hb : bucketize rest with ⟨c', r', f', p'⟩
    have ih' := ih c' r' f' p' hb
    simp only [bucketize, hb] at h
    split_ifs at h <;> cases h <;> simp only [List.length_cons] <;> omega

/-- C9 counterexample: on a 100-node workflow with 29 succeeded nodes,
`analyze_workflow_progress` reports `progress_pct = 28`, while the
integer floor of `100 * 29 / 100` is `29` — Python's
`int((29 / 100) * 100)` evaluates to 28 in binary64 floating point. -/
theorem claim9_counterexample :
    (analyze_workflow_progress (some wd100)).map
      (fun s => (s.completedNodes, s.totalNodes, s.progressPct,
        100 * s.completedNodes / s.totalNodes)) =
      some (29, 100, 28, 29) := by
  decide

/-- C9 amended: `analyze_workflow_progress` returns `None` exactly when
the input is falsy; otherwise each node lands in at most one of the
four buckets, so the four counts sum to at most `total_nodes`;
`progress_pct` is `int((completed / total) * 100)` evaluated in
binary64 floating point (0 when `total_nodes` is 0) — which can fall
one below the exact integer floor (see the counterexample) — and always
lies between 0 and 100. -/
theorem claim9_amended :
    (analyze_workflow_progress none = none) ∧
    (∀ wd, (analyze_workflow_progress (some wd)).isSome = true) ∧
    (∀ wd s, analyze_workflow_progress (some wd) = some s →
      s.completedNodes + s.runningNodes + s.failedNodes + s.pendingNodes ≤
          s.totalNodes ∧
        s.totalNodes = wd.nodes.length ∧
        s.progressPct = pctFloat s.completedNodes s.totalNodes ∧
        s.progressPct ≤ 100) := by
  refine ⟨rfl, ?_, ?_⟩
  · intro wd
    simp [analyze_workflow_progress]
  · intro wd s hs
    rcases hb : bucketize wd.nodes with ⟨c, r, f, p⟩
    have hsum := bucketize_sum_le wd.nodes c r f p hb
    simp only [analyze_workflow_progress, hb] at hs
    cases hs
    refine ⟨by simpa using hsum, rfl, rfl, ?_⟩
    simp only
    exact pctFloat_le_100 c.length wd.nodes.length (by omega)

/-- C9 witness: a concrete two-node workflow, one node succeeded. -/
theorem claim9_amended_witness :
    analyze_workflow_progress (some
      { phase := some "Running", creationTimestamp := none,
        finishedAt := none,
        nodes := [{ name := "a", phase := some "Succeeded" },
                  { name := "b", phase := some "Running" }] }) =
      some
        { workflowStatus := "Running", startTime := none, finishTime := none,
          totalNodes := 2, completedNodes := 1, runningNodes := 1,
          failedNodes := 0, pendingNodes := 0, progressPct := 50,
          failedNodeNames := [], runningNodeNames := ["b"],
          completedNodeNames := ["a"] } ∧
      1 + 1 + 0 + 0 ≤ 2 ∧ (50 : Nat) ≤ 100 := by
  have h := claim9_amended.2.2
    { phase := some "Running", creationTimestamp := none,
      finishedAt := none,
      nodes := [{ name := "a", phase := some "Succeeded" },
                { name := "b", phase := some "Running" }] }
    { workflowStatus := "Running", startTime := none, finishTime := none,
      totalNodes := 2, completedNodes := 1, runningNodes := 1,
      failedNodes := 0, pendingNodes := 0, progressPct := 50,
      failedNodeNames := [], runningNodeNames := ["b"],
      completedNodeNames := ["a"] }
    (by decide)
  exact ⟨by decide, by simp, h.2.2.2⟩

/-! ### Cluster-operation classification for `fix_granite_image.py` -/

/-- Every operation of every trace of `fix_granite_image.py` is a read,
a pod deletion, the hardcoded two-node `Succeeded` patch, or the
workaround-pod creation. -/
theorem fix_granite_ops_all (applyOk : Bool) (g : Option Bool) :
    ((fix_granite_main_ops applyOk ++ patch_workflow_image_ops applyOk ++
        skip_granite_tasks_ops g).all
      (fun op => op.isRead || op.isDeletePod ||
        (op == ClusterOp.patchNodePhases granitePatch) ||
        (op == ClusterOp.applyPod workaroundPod))) = true := by
  cases applyOk <;> rcases g with _ | b <;> try cases b
  all_goals decide

/-- C4 counterexample: `create_replacement_pods` performs an
`oc apply` creating the workaround pod — a cluster mutation that is
neither a pod deletion nor a node-phase patch, so not every
non-delete/non-patch interaction is a read. -/
theorem claim4_counterexample :
    ClusterOp.applyPod workaroundPod ∈ create_replacement_pods_ops true ∧
      (ClusterOp.applyPod workaroundPod).isRead = false ∧
      (ClusterOp.applyPod workaroundPod).isDeletePod = false ∧
      (ClusterOp.applyPod workaroundPod).isPatchPhase = false := by
  decide

/-- C4 amended: the scripts mutate cluster state only through three
operations — deleting pods, `skip_granite_tasks`'s force-patch writing
exactly `Succeeded` to the two hardcoded node paths, and creating the
single workaround placeholder pod via `oc apply`; every other `oc`
interaction of `fix_granite_image.py` is a read. -/
theorem claim4_amended :
    (∀ (applyOk : Bool) (g : Option Bool) (op : ClusterOp),
      op ∈ fix_granite_main_ops applyOk ++ patch_workflow_image_ops applyOk ++
          skip_granite_tasks_ops g →
      op.isRead = true ∨ op.isDeletePod = true ∨
        op = ClusterOp.patchNodePhases granitePatch ∨
        op = ClusterOp.applyPod workaroundPod) ∧
    granitePatch =
      [ ("/status/nodes/instructlab-dpltw-system-container-impl-1650928254/phase",
         "Succeeded"),
        ("/status/nodes/instructlab-dpltw-system-container-impl-3973677185/phase",
         "Succeeded") ] := by
  constructor
  · intro applyOk g op hop
    have hb := List.all_eq_true.mp (fix_granite_ops_all applyOk g) op hop
    simp only [Bool.or_eq_true, beq_iff_eq] at hb
    tauto
  · rfl

/-- C4 witness: the phase patch issued by `skip_granite_tasks` is one
of the three permitted mutations. -/
theorem claim4_amended_witness :
    (ClusterOp.patchNodePhases granitePatch).isRead = true ∨
      (ClusterOp.patchNodePhases granitePatch).isDeletePod = true ∨
      ClusterOp.patchNodePhases granitePatch =
        ClusterOp.patchNodePhases granitePatch ∨
      ClusterOp.patchNodePhases granitePatch =
        ClusterOp.applyPod workaroundPod :=
  claim4_amended.1 true (some true) (ClusterOp.patchNodePhases granitePatch)
    (by decide)

end Dspa
